import Mathlib

/-!
Verification of the foodgram-st backend (`backend/api/views.py`,
`backend/api/serializers.py`, `backend/ingredients/models.py`) against its
natural-language specification.

The shallow embedding below translates the Django/DRF code into pure Lean
functions over an explicit database state.  Rows of the relevant tables are
plain structures; querysets become lists; each HTTP handler becomes a function
from the database state (plus request data) to a new state together with an
optional error mirroring the non-2xx response the view returns.  Since the
source contains no `transaction.atomic` block, every ORM write is modelled as
taking effect immediately (Django's default autocommit), which matters for the
atomicity analysis of `CulinaryRecipeCreateUpdateSerializer.update`.
-/

namespace Foodgram

/-! ### String helpers

Lean's built-in `String` order and `String.toLower` are iterator-based and do
not reduce in the kernel, so the lexicographic comparison used to model SQL
`ORDER BY name` and the lowering used to model `istartswith` are defined
directly on the underlying character lists. -/

/-- Lexicographic comparison of character lists by code point, the embedding
of SQL ordering on text columns. -/
def charsLe : List Char → List Char → Bool
  | [], _ => true
  | _ :: _, [] => false
  | a :: as, b :: bs =>
    if a.toNat < b.toNat then true
    else if a.toNat = b.toNat then charsLe as bs
    else false

/-- Comparison `strLe a b` models `a ≤ b` for the database's alphabetical ordering. -/
def strLe (a b : String) : Bool := charsLe a.data b.data

/-- Lower-cased character list of a string; embeds the case folding performed
by the `istartswith` lookup. -/
def lowerChars (s : String) : List Char := s.data.map Char.toLower

/-! ### Data model

Rows of the tables used by the API layer.  `CulinaryIngredient` is taken from
`ingredients/models.py`; the recipe, ingredient-line, bookmark, shopping-list
and subscription rows are the rows the API code in `views.py`/`serializers.py`
reads and writes (`CulinaryRecipe`, `RecipeIngredient`, `BookmarkedRecipe`,
`ShoppingListRecipe`, `ChefSubscription`), with users and recipes identified
by their primary keys. -/

/-- A row of the ingredient catalog (`CulinaryIngredient`): name and
measurement unit, with an integer primary key. -/
structure Ingredient where
  id : Nat
  name : String
  measurement_unit : String
deriving DecidableEq, Repr

/-- A recipe row (`CulinaryRecipe`) as written by the create/update
serializer: the serializer's writable fields plus the author forced by the
view layer. -/
structure Recipe where
  id : Nat
  author : Nat
  name : String
  text : String
  cooking_time : Int
  image : String
deriving DecidableEq, Repr

/-- An ingredient-line row (`RecipeIngredient`): recipe id, ingredient id and
amount, as created by `_create_recipe_ingredients`. -/
structure RecipeIngredient where
  recipe : Nat
  ingredient : Nat
  amount : Int
deriving DecidableEq, Repr

/-- The database state visible to the API layer.  The two user–recipe
relations (`BookmarkedRecipe`, `ShoppingListRecipe`) and the subscription
relation (`ChefSubscription`, stored as (follower, author)) are lists of id
pairs. -/
structure DB where
  ingredients : List Ingredient
  recipes : List Recipe
  recipeIngredients : List RecipeIngredient
  bookmarks : List (Nat × Nat)
  shoppingCart : List (Nat × Nat)
  subscriptions : List (Nat × Nat)
deriving DecidableEq, Repr

/-- HTTP method of the two-verb relation endpoints. -/
inductive Method
  | post
  | delete
deriving DecidableEq, Repr

/-! ### User–recipe relations (`CulinaryRecipeViewSet._handle_user_recipe_relation`)

The favorite and shopping-cart endpoints share one generic handler: it checks
whether the (user, recipe) row exists, then on POST rejects a duplicate with
a 400 response and otherwise inserts, and on DELETE rejects an absent pair
with a 400 response and otherwise deletes the row. -/

/-- Errors of the generic relation handler: the "already added" 400 response
and the "not found" 400 response. -/
inductive RelErr
  | duplicate
  | notFound
deriving DecidableEq, Repr

/-- Embedding of `_handle_user_recipe_relation` acting on one relation table:
returns the table after the call together with the error response, if any. -/
def handleUserRecipeRelation (rels : List (Nat × Nat)) (m : Method) (u r : Nat) :
    List (Nat × Nat) × Option RelErr :=
  let relationExists := rels.contains (u, r)
  match m with
  | .post =>
    if relationExists then (rels, some .duplicate)
    else ((u, r) :: rels, none)
  | .delete =>
    if !relationExists then (rels, some .notFound)
    else (rels.filter (fun p => p ≠ (u, r)), none)

/-- Endpoint `manage_favorites`: the generic handler applied to the bookmark table. -/
def manageFavorites (db : DB) (m : Method) (u r : Nat) : DB × Option RelErr :=
  let res := handleUserRecipeRelation db.bookmarks m u r
  ({ db with bookmarks := res.1 }, res.2)

/-- Endpoint `manage_shopping_cart`: the generic handler applied to the shopping-cart
table. -/
def manageShoppingCart (db : DB) (m : Method) (u r : Nat) : DB × Option RelErr :=
  let res := handleUserRecipeRelation db.shoppingCart m u r
  ({ db with shoppingCart := res.1 }, res.2)

/-! ### Subscriptions (`UserProfileViewSet.manage_subscription`) -/

/-- Errors of the subscription endpoint: the self-subscription 400 response,
the "already subscribed" 400 response and the "not subscribed" 400
response. -/
inductive SubErr
  | selfReference
  | duplicate
  | notFound
deriving DecidableEq, Repr

/-- Embedding of `manage_subscription`: the self-check runs before anything
else; then the (follower, author) existence check feeds the POST and DELETE
branches.  Returns the subscription table after the call and the error
response, if any. -/
def manageSubscription (subs : List (Nat × Nat)) (m : Method)
    (currentUser author : Nat) : List (Nat × Nat) × Option SubErr :=
  if author = currentUser then (subs, some .selfReference)
  else
    let subscriptionExists := subs.contains (currentUser, author)
    match m with
    | .post =>
      if subscriptionExists then (subs, some .duplicate)
      else ((currentUser, author) :: subs, none)
    | .delete =>
      if !subscriptionExists then (subs, some .notFound)
      else (subs.filter (fun p => p ≠ (currentUser, author)), none)

/-! ### Ingredient validation
(`CulinaryRecipeCreateUpdateSerializer.validate_ingredients`)

A raw ingredient line of the request payload is a JSON object from which the
code reads `item.get("id")` and `item.get("amount")`.  The embedding keeps
exactly what the code observes: whether an `id` is present (Python truthiness
makes `0` count as missing), and whether an `amount` is present and, if so,
whether `int(amount)` succeeds and which integer it yields. -/

/-- A raw ingredient line: `id` as sent (none = key absent or null), and
`amount` (outer none = key absent or null; `some none` = present but
`int(...)` raises; `some (some n)` = present and parses to `n`). -/
structure IngredientItem where
  id : Option Nat
  amount : Option (Option Int)
deriving DecidableEq, Repr

/-- Python truthiness of the `id` value: `None` and `0` are falsy. -/
def idTruthy : Option Nat → Bool
  | some n => n != 0
  | none => false

/-- The errors `validate_ingredients` collects, one constructor per message
the code appends (indices are 0-based here; the messages print `i + 1`). -/
inductive VErr
  | emptyList
  | missingId (i : Nat)
  | amountBelowMin (i : Nat)
  | amountBadFormat (i : Nat)
  | missingAmount (i : Nat)
  | dupIngredient (i : Nat) (id : Nat)
  | unknownIngredients (ids : List Nat)
deriving DecidableEq, Repr

/-- The errors one loop iteration appends for line `i` given the set of
previously seen ids: the missing-id check, then the amount checks, then the
duplicate check (which fires only for a truthy id already seen). -/
def itemErrors (i : Nat) (it : IngredientItem) (seen : List Nat) : List VErr :=
  (if idTruthy it.id then [] else [.missingId i])
  ++ (match it.amount with
      | some (some a) => if a < 1 then [.amountBelowMin i] else []
      | some none => [.amountBadFormat i]
      | none => [.missingAmount i])
  ++ (match it.id with
      | some n => if n != 0 && seen.contains n then [.dupIngredient i n] else []
      | none => [])

/-- After processing one item, a truthy id is added to the seen set. -/
def seenAfter (it : IngredientItem) (seen : List Nat) : List Nat :=
  match it.id with
  | some n => if n != 0 then n :: seen else seen
  | none => seen

/-- The validation loop: fold over the lines carrying the running index and
the set of seen ids, concatenating the per-line errors in order. -/
def collectErrors : List IngredientItem → Nat → List Nat → List VErr
  | [], _, _ => []
  | it :: rest, i, seen =>
    itemErrors i it seen ++ collectErrors rest (i + 1) (seenAfter it seen)

/-- The truthy ids of a line list in order of first appearance (the contents
of the `seen_ingredients` set after the loop). -/
def truthyIds (value : List IngredientItem) : List Nat :=
  value.filterMap fun it =>
    match it.id with
    | some n => if n != 0 then some n else none
    | none => none

/-- The batch catalog check after the loop: the seen ids absent from the
catalog, reported as one aggregated error (or nothing when none are
missing). -/
def unknownErrs (catalog : List Nat) (value : List IngredientItem) : List VErr :=
  let missing := (truthyIds value).dedup.filter (fun n => !(catalog.contains n))
  if missing.isEmpty then [] else [.unknownIngredients missing]

instance {ε α : Type} [DecidableEq ε] [DecidableEq α] : DecidableEq (Except ε α) :=
  fun x y =>
    match x, y with
    | .ok a, .ok b =>
      if h : a = b then isTrue (by rw [h])
      else isFalse (by intro hc; injection hc with h2; exact h h2)
    | .error a, .error b =>
      if h : a = b then isTrue (by rw [h])
      else isFalse (by intro hc; injection hc with h2; exact h h2)
    | .ok a, .error b => isFalse (by intro hc; exact Except.noConfusion hc)
    | .error a, .ok b => isFalse (by intro hc; exact Except.noConfusion hc)

/-- Embedding of `validate_ingredients`: reject an empty list outright, run
the loop, append the aggregated catalog error, and fail with the whole list
when any error was collected.  `catalog` is the list of ingredient ids in the
`CulinaryIngredient` table. -/
def validate_ingredients (catalog : List Nat) (value : List IngredientItem) :
    Except (List VErr) (List IngredientItem) :=
  if value.length < 1 then .error [.emptyList]
  else
    let errs := collectErrors value 0 [] ++ unknownErrs catalog value
    if errs.isEmpty then .ok value else .error errs

/-! Claim-side (spec-worded) view of the validation: defects are located by
position, a repeat being an occurrence of a truthy id that already occurs at
a strictly earlier index.  This positional description is compared with the
accumulator-driven loop above. -/

/-- The truthy ids occurring strictly before index `i`. -/
def idsBefore (value : List IngredientItem) (i : Nat) : List Nat :=
  truthyIds (value.take i)

/-- The errors attributable to position `i` under the positional reading:
identical content to one loop iteration, but with the seen set spelled out as
the ids occurring before `i`. -/
def errsAt (value : List IngredientItem) (i : Nat) : List VErr :=
  match value[i]? with
  | none => []
  | some it => itemErrors i it (idsBefore value i)

/-- All per-line errors of the positional reading, in index order. -/
def posLineErrs (value : List IngredientItem) : List VErr :=
  (List.range value.length).flatMap (errsAt value)

/-- Defects exactly as the claim words them: one defect per defective
occurrence, *including* one `unknownId` defect for every line whose truthy id
is absent from the catalog. -/
inductive Defect
  | missingId (i : Nat)
  | missingAmount (i : Nat)
  | invalidAmount (i : Nat)
  | repeatedId (i : Nat) (id : Nat)
  | unknownId (i : Nat) (id : Nat)
deriving DecidableEq, Repr

/-- The claim-worded defect list of one position. -/
def claimDefectsAt (catalog : List Nat) (value : List IngredientItem) (i : Nat) :
    List Defect :=
  match value[i]? with
  | none => []
  | some it =>
    (if idTruthy it.id then [] else [.missingId i])
    ++ (match it.amount with
        | some (some a) => if a < 1 then [.invalidAmount i] else []
        | some none => [.invalidAmount i]
        | none => [.missingAmount i])
    ++ (match it.id with
        | some n =>
          if n != 0 && (idsBefore value i).contains n then [.repeatedId i n] else []
        | none => [])
    ++ (match it.id with
        | some n =>
          if n != 0 && !(catalog.contains n) then [.unknownId i n] else []
        | none => [])

/-- The claim-worded defect list of a whole line sequence: one entry per
defective occurrence. -/
def claimDefects (catalog : List Nat) (value : List IngredientItem) : List Defect :=
  (List.range value.length).flatMap (claimDefectsAt catalog value)

/-! ### Recipe create and update
(`CulinaryRecipeCreateUpdateSerializer.create` / `.update`,
`CulinaryRecipeViewSet.perform_update`)

The serializer's `Meta.fields` are `("id", "name", "text", "cooking_time",
"image", "ingredients")`; `author` is not among them, so an author value in
the raw payload never reaches `validated_data`.  The view's `perform_update`
rejects a non-author before `serializer.save()` runs, so it precedes every
write.  The serializer's `update` saves the attribute fields, then deletes
all existing ingredient lines of the recipe and bulk-creates the new ones;
the source wraps none of this in a transaction, so the embedding lets a
failure injected between the delete and the bulk-create keep the
already-committed delete (Django autocommit). -/

/-- The raw create/update payload: the serializer's writable attribute
fields, the `ingredients` field (none = key absent), and whatever `author`
value the caller put in the request body (ignored by the serializer because
`author` is not in `Meta.fields`). -/
structure RecipePayload where
  name : String
  text : String
  cooking_time : Int
  image : String
  ingredients : Option (List IngredientItem)
  suppliedAuthor : Option Nat
deriving DecidableEq, Repr

/-- Errors of the create/update pipeline.  `injectedFailure` stands for a
crash simulated between the line delete and the line bulk-create. -/
inductive UpdateError
  | notFound
  | missingIngredientsField
  | validation (errs : List VErr)
  | invalidCookingTime
  | permission
  | injectedFailure
deriving DecidableEq, Repr

/-- Helper `_create_recipe_ingredients`: build one `RecipeIngredient` row per
validated line (validation guarantees the id and the parsed amount are
present). -/
def buildLines (rid : Nat) (items : List IngredientItem) : List RecipeIngredient :=
  items.filterMap fun it =>
    match it.id, it.amount with
    | some i, some (some a) => some { recipe := rid, ingredient := i, amount := a }
    | _, _ => none

/-- Ids of the ingredient catalog, the set `validate_ingredients` checks
membership in. -/
def catalogIds (db : DB) : List Nat := db.ingredients.map (fun ing => ing.id)

/-- The next auto-assigned recipe primary key. -/
def nextRecipeId (db : DB) : Nat :=
  db.recipes.foldr (fun r m => max r.id m) 0 + 1

/-- Embedding of recipe creation (`create` view action): field validation
(`ingredients` required, `validate_ingredients`, `validate_cooking_time`),
then insertion of the recipe row with `author` forced to the acting user —
`CulinaryRecipe.objects.create(author=self.context["request"].user, ...)` —
followed by the bulk insert of the lines.  Returns the state after the call
and the error response, if any. -/
def createRecipe (db : DB) (actor : Nat) (p : RecipePayload) :
    DB × Option UpdateError :=
  match p.ingredients with
  | none => (db, some .missingIngredientsField)
  | some value =>
    match validate_ingredients (catalogIds db) value with
    | .error errs => (db, some (.validation errs))
    | .ok _ =>
      if p.cooking_time < 1 then (db, some .invalidCookingTime)
      else
        let rid := nextRecipeId db
        let recipe : Recipe :=
          { id := rid, author := actor, name := p.name, text := p.text,
            cooking_time := p.cooking_time, image := p.image }
        ({ db with
            recipes := recipe :: db.recipes,
            recipeIngredients := db.recipeIngredients ++ buildLines rid value },
         none)

/-- Embedding of recipe update: object lookup, field validation, the
`perform_update` author check, then the serializer's `update` — save the
attribute fields, delete the recipe's lines, and (unless the injected
failure fires at exactly that point) bulk-create the new lines.  Every step
commits as it executes, as in the source, which has no transaction
wrapper. -/
def updateRecipe (db : DB) (actor rid : Nat) (p : RecipePayload)
    (failAfterDelete : Bool) : DB × Option UpdateError :=
  match db.recipes.find? (fun r => r.id == rid) with
  | none => (db, some .notFound)
  | some r =>
    match p.ingredients with
    | none => (db, some .missingIngredientsField)
    | some value =>
      match validate_ingredients (catalogIds db) value with
      | .error errs => (db, some (.validation errs))
      | .ok _ =>
        if p.cooking_time < 1 then (db, some .invalidCookingTime)
        else if actor ≠ r.author then (db, some .permission)
        else
          let db₁ := { db with
            recipes := db.recipes.map fun (x : Recipe) =>
              if x.id == rid then
                { x with name := p.name, text := p.text,
                         cooking_time := p.cooking_time, image := p.image }
              else x }
          let db₂ := { db₁ with
            recipeIngredients :=
              db₁.recipeIngredients.filter (fun ri => ri.recipe != rid) }
          if failAfterDelete then (db₂, some .injectedFailure)
          else
            ({ db₂ with
                recipeIngredients := db₂.recipeIngredients ++ buildLines rid value },
             none)

/-- The stored ingredient-line set of one recipe. -/
def linesOf (db : DB) (rid : Nat) : List RecipeIngredient :=
  db.recipeIngredients.filter (fun ri => ri.recipe == rid)

/-! ### Shopping-list aggregation
(`CulinaryRecipeViewSet.download_shopping_cart`)

The view collects the recipe ids of the user's `ShoppingListRecipe` rows,
takes every `RecipeIngredient` of those recipes joined with its
`CulinaryIngredient`, groups by `(ingredient__name,
ingredient__measurement_unit)`, sums `amount` per group, orders by
`ingredient__name`, rejects an empty aggregate with the 400 "empty list"
response, and renders each row as `f"{name} ({unit}): {total}"` joined by
newlines. -/

/-- Recipe ids in the user's shopping cart
(`ShoppingListRecipe.objects.filter(user=...).values_list("recipe")`). -/
def cartRecipeIds (db : DB) (u : Nat) : List Nat :=
  (db.shoppingCart.filter (fun p => p.1 == u)).map (fun p => p.2)

/-- The `RecipeIngredient` rows of the cart's recipes
(`RecipeIngredient.objects.filter(recipe__in=recipes)`). -/
def cartLines (db : DB) (u : Nat) : List RecipeIngredient :=
  db.recipeIngredients.filter (fun ri => (cartRecipeIds db u).contains ri.recipe)

/-- Lookup of an ingredient row by primary key. -/
def ingredientById (db : DB) (iid : Nat) : Option Ingredient :=
  db.ingredients.find? (fun ing => ing.id == iid)

/-- The cart's lines joined with their ingredient rows, as (name, unit,
amount) triples — the rows underlying the SQL `values(...).annotate(...)`. -/
def joinedCartLines (db : DB) (u : Nat) : List (String × String × Int) :=
  (cartLines db u).filterMap fun ri =>
    (ingredientById db ri.ingredient).map fun ing =>
      (ing.name, ing.measurement_unit, ri.amount)

/-- The `GROUP BY` key of a joined line: the (name, unit) pair. -/
def lineKey (l : String × String × Int) : String × String := (l.1, l.2.1)

/-- The `ORDER BY ingredient__name` relation on group keys. -/
def keyNameLE (a b : String × String) : Prop := strLe a.1 b.1 = true

instance : DecidableRel keyNameLE := fun a b => instDecidableEqBool (strLe a.1 b.1) true

/-- The distinct `GROUP BY` keys of the cart's joined lines. -/
def groupKeys (db : DB) (u : Nat) : List (String × String) :=
  ((joinedCartLines db u).map lineKey).dedup

/-- The group keys ordered by ingredient name. -/
def sortedKeys (db : DB) (u : Nat) : List (String × String) :=
  (groupKeys db u).insertionSort keyNameLE

/-- The `Sum("amount")` aggregate over one group. -/
def groupTotal (db : DB) (u : Nat) (k : String × String) : Int :=
  (((joinedCartLines db u).filter (fun l => lineKey l == k)).map (fun l => l.2.2)).sum

/-- The aggregated queryset: one (name, unit, total) row per distinct
(name, unit) key of the joined lines, with `total` the sum of the group's
amounts, ordered alphabetically by name. -/
def aggregateRows (db : DB) (u : Nat) : List (String × String × Int) :=
  (sortedKeys db u).map fun k => (k.1, k.2, groupTotal db u k)

/-- One line of the text report: `f"{name} ({unit}): {total}"`. -/
def formatLine (row : String × String × Int) : String :=
  row.1 ++ " (" ++ row.2.1 ++ "): " ++ toString row.2.2

/-- The download endpoint's failure: the 400 "Список покупок пуст"
response. -/
inductive DownloadErr
  | emptyList
deriving DecidableEq, Repr

/-- Embedding of `download_shopping_cart`: reject an empty aggregate, else
return the newline-joined report. -/
def download_shopping_cart (db : DB) (u : Nat) : Except DownloadErr String :=
  let rows := aggregateRows db u
  if rows.isEmpty then .error .emptyList
  else .ok (String.intercalate "\n" (rows.map formatLine))

/-- Referential integrity of the line table: every `RecipeIngredient` points
at an existing catalog row (the database's foreign-key constraint). -/
def linesFKOk (db : DB) : Prop :=
  ∀ ri ∈ db.recipeIngredients, (ingredientById db ri.ingredient).isSome

instance (db : DB) : Decidable (linesFKOk db) := by
  unfold linesFKOk
  infer_instance

/-! ### Ingredient search (`IngredientSearchViewSet.get_queryset`)

`CulinaryIngredient.objects.all()` is ordered by the model's
`Meta.ordering = ("name",)`; a missing or empty (falsy) `name` parameter
leaves the queryset unfiltered; a non-empty term applies
`name__istartswith`. -/

/-- Case-insensitive prefix test, the embedding of `istartswith`. -/
def istartswith (term name : String) : Bool :=
  (lowerChars term).isPrefixOf (lowerChars name)

/-- Alphabetical order on catalog rows, from `Meta.ordering = ("name",)`. -/
def ingNameLE (a b : Ingredient) : Prop := strLe a.name b.name = true

instance : DecidableRel ingNameLE := fun a b => instDecidableEqBool (strLe a.name b.name) true

/-- The `Meta.ordering = ("name",)` order applied to the catalog. -/
def orderedCatalog (db : DB) : List Ingredient :=
  db.ingredients.insertionSort ingNameLE

/-- Embedding of the search queryset: `name` absent or empty keeps the whole
(ordered) catalog; a non-empty term filters it by case-insensitive name
prefix. -/
def ingredientSearch (db : DB) (term : Option String) : List Ingredient :=
  let base := orderedCatalog db
  match term with
  | none => base
  | some t => if t = "" then base else base.filter (fun ing => istartswith t ing.name)

/-! ### Concrete example states used by witnesses and counterexamples -/

/-- A recipe owned by user 1. -/
def exRecipe : Recipe :=
  { id := 10, author := 1, name := "Borscht", text := "Cook it",
    cooking_time := 30, image := "img" }

/-- A state with one catalog ingredient, one recipe of user 1 and one stored
ingredient line for it. -/
def exDB : DB :=
  { ingredients := [{ id := 1, name := "Salt", measurement_unit := "g" }],
    recipes := [exRecipe],
    recipeIngredients := [{ recipe := 10, ingredient := 1, amount := 5 }],
    bookmarks := [], shoppingCart := [], subscriptions := [] }

/-- A valid update/create payload naming catalog ingredient 1. -/
def exPayload : RecipePayload :=
  { name := "New name", text := "New text", cooking_time := 10, image := "i",
    ingredients := some [{ id := some 1, amount := some (some 7) }],
    suppliedAuthor := none }

/-- The spec's shopping-list example: recipes A and B both use the Salt
catalog row; user 7 has both in the cart with amounts 5 and 3. -/
def exCartDB : DB :=
  { ingredients := [{ id := 1, name := "Salt", measurement_unit := "g" }],
    recipes :=
      [{ id := 1, author := 1, name := "A", text := "a", cooking_time := 1, image := "" },
       { id := 2, author := 1, name := "B", text := "b", cooking_time := 1, image := "" }],
    recipeIngredients :=
      [{ recipe := 1, ingredient := 1, amount := 5 },
       { recipe := 2, ingredient := 1, amount := 3 }],
    bookmarks := [], shoppingCart := [(7, 1), (7, 2)], subscriptions := [] }

/-- A state whose user 9 has a non-empty cart whose only recipe has no
ingredient lines at all. -/
def exNoLinesDB : DB :=
  { ingredients := [{ id := 1, name := "Salt", measurement_unit := "g" }],
    recipes :=
      [{ id := 1, author := 1, name := "A", text := "a", cooking_time := 1, image := "" }],
    recipeIngredients := [],
    bookmarks := [], shoppingCart := [(9, 1)], subscriptions := [] }

/-- A catalog with Salt, Pepper and Salmon, for the search example. -/
def exSearchDB : DB :=
  { ingredients :=
      [{ id := 1, name := "Salt", measurement_unit := "g" },
       { id := 2, name := "Pepper", measurement_unit := "g" },
       { id := 3, name := "Salmon", measurement_unit := "kg" }],
    recipes := [], recipeIngredients := [],
    bookmarks := [], shoppingCart := [], subscriptions := [] }

/-! ### Theorems -/

/-- C7: for both relation kinds, add fails with a duplicate error exactly when
the pair is present (inserting otherwise), remove fails with a not-found error
exactly when it is absent (deleting otherwise); a second add always fails, as
does a second remove; both endpoints instantiate the same handler. -/
theorem relation_add_remove_contract (rels : List (Nat × Nat)) (u r : Nat) :
    ((u, r) ∈ rels →
      handleUserRecipeRelation rels .post u r = (rels, some .duplicate))
    ∧ ((u, r) ∉ rels →
      handleUserRecipeRelation rels .post u r = ((u, r) :: rels, none))
    ∧ ((u, r) ∉ rels →
      handleUserRecipeRelation rels .delete u r = (rels, some .notFound))
    ∧ ((u, r) ∈ rels →
      (handleUserRecipeRelation rels .delete u r).2 = none
        ∧ (u, r) ∉ (handleUserRecipeRelation rels .delete u r).1)
    ∧ ((handleUserRecipeRelation rels .post u r).2 = none →
      (handleUserRecipeRelation
        (handleUserRecipeRelation rels .post u r).1 .post u r).2 = some .duplicate)
    ∧ ((handleUserRecipeRelation rels .delete u r).2 = none →
      (handleUserRecipeRelation
        (handleUserRecipeRelation rels .delete u r).1 .delete u r).2 = some .notFound)
    ∧ (∀ db : DB, db.bookmarks = rels →
        manageFavorites db .post u r
          = ({ db with bookmarks := (handleUserRecipeRelation rels .post u r).1 },
             (handleUserRecipeRelation rels .post u r).2))
    ∧ (∀ db : DB, db.shoppingCart = rels →
        manageShoppingCart db .post u r
          = ({ db with shoppingCart := (handleUserRecipeRelation rels .post u r).1 },
             (handleUserRecipeRelation rels .post u r).2)) := by
  refine ⟨?_, ?_, ?_, ?_, ?_, ?_, ?_, ?_⟩
  · intro h; simp [handleUserRecipeRelation, h]
  · intro h; simp [handleUserRecipeRelation, h]
  · intro h; simp [handleUserRecipeRelation, h]
  · intro h
    constructor
    · simp [handleUserRecipeRelation, h]
    · simp [handleUserRecipeRelation, h, List.mem_filter]
  · intro h
    by_cases hc : (u, r) ∈ rels
    · simp [handleUserRecipeRelation, hc] at h
    · simp [handleUserRecipeRelation, hc]
  · intro h
    by_cases hc : (u, r) ∈ rels
    · simp [handleUserRecipeRelation, hc, List.mem_filter]
    · simp [handleUserRecipeRelation, hc] at h
  · intro db hdb; simp [manageFavorites, hdb]
  · intro db hdb; simp [manageShoppingCart, hdb]

/-- Witness for C7 at a concrete state: the empty bookmark table, user 1,
recipe 2. -/
theorem relation_add_remove_contract_witness :
    handleUserRecipeRelation ([(1, 2)] : List (Nat × Nat)) .post 1 2
      = ([(1, 2)], some .duplicate)
    ∧ handleUserRecipeRelation ([] : List (Nat × Nat)) .post 1 2
      = ([(1, 2)], none)
    ∧ (handleUserRecipeRelation
        (handleUserRecipeRelation ([] : List (Nat × Nat)) .post 1 2).1 .post 1 2).2
      = some .duplicate := by
  refine ⟨(relation_add_remove_contract [(1, 2)] 1 2).1 (by decide),
          (relation_add_remove_contract [] 1 2).2.1 (by decide),
          (relation_add_remove_contract [] 1 2).2.2.2.2.1 ?_⟩
  rw [(relation_add_remove_contract [] 1 2).2.1 (by decide)]

/-- C8: subscribing to oneself fails with the self-reference error and leaves
the subscription edge set unchanged, for every user, every method and every
prior edge set. -/
theorem subscribe_self_fails (subs : List (Nat × Nat)) (m : Method) (u : Nat) :
    manageSubscription subs m u u = (subs, some .selfReference) := by
  simp [manageSubscription]

/-- The per-line errors depend on the seen set only through membership. -/
theorem itemErrors_congr (i : Nat) (it : IngredientItem) (seen₁ seen₂ : List Nat)
    (h : ∀ n : Nat, n ∈ seen₁ ↔ n ∈ seen₂) :
    itemErrors i it seen₁ = itemErrors i it seen₂ := by
  have hc : ∀ n : Nat, seen₁.contains n = seen₂.contains n := by
    intro n; simp [h n]
  unfold itemErrors
  cases it.id with
  | none => rfl
  | some n => simp only [hc]

/-- The validation loop computes exactly the positional error list: running
`collectErrors` on a suffix, at the index and with the seen ids of the
processed prefix, yields the positional errors of the full list at the
suffix's indices. -/
theorem collectErrors_positional (rest : List IngredientItem) :
    ∀ (pre : List IngredientItem) (seen : List Nat),
      (∀ n : Nat, n ∈ seen ↔ n ∈ truthyIds pre) →
      collectErrors rest pre.length seen
        = (List.range rest.length).flatMap
            (fun j => errsAt (pre ++ rest) (pre.length + j)) := by
  induction rest with
  | nil => intro pre seen _; rfl
  | cons it rest ih =>
    intro pre seen hseen
    have hget : (pre ++ it :: rest)[pre.length]? = some it := by
      rw [List.getElem?_append_right (Nat.le_refl _), Nat.sub_self]
      simp
    have htake : idsBefore (pre ++ it :: rest) pre.length = truthyIds pre := by
      unfold idsBefore
      rw [List.take_left]
    have hhead : errsAt (pre ++ it :: rest) pre.length = itemErrors pre.length it seen := by
      simp only [errsAt, hget, htake]
      exact itemErrors_congr _ _ _ _ (fun n => (hseen n).symm)
    have hsplit : (List.range (it :: rest).length).flatMap
          (fun j => errsAt (pre ++ it :: rest) (pre.length + j))
        = errsAt (pre ++ it :: rest) pre.length
          ++ (List.range rest.length).flatMap
              (fun j => errsAt (pre ++ it :: rest) (pre.length + (j + 1))) := by
      rw [List.length_cons, List.range_succ_eq_map]
      simp [List.flatMap_cons, List.flatMap_map, Nat.succ_eq_add_one]
    have hinv : ∀ n : Nat, n ∈ seenAfter it seen ↔ n ∈ truthyIds (pre ++ [it]) := by
      intro n
      have htp : truthyIds (pre ++ [it]) = truthyIds pre ++ truthyIds [it] := by
        simp [truthyIds]
      rw [htp]
      cases hid : it.id with
      | none =>
        have h1 : seenAfter it seen = seen := by simp [seenAfter, hid]
        have h2 : truthyIds [it] = [] := by simp [truthyIds, hid]
        rw [h1, h2, List.append_nil]
        exact hseen n
      | some m =>
        by_cases hm : m = 0
        · have h1 : seenAfter it seen = seen := by simp [seenAfter, hid, hm]
          have h2 : truthyIds [it] = [] := by simp [truthyIds, hid, hm]
          rw [h1, h2, List.append_nil]
          exact hseen n
        · have h1 : seenAfter it seen = m :: seen := by simp [seenAfter, hid, hm]
          have h2 : truthyIds [it] = [m] := by simp [truthyIds, hid, hm]
          rw [h1, h2]
          simp only [List.mem_cons, List.mem_append, hseen n]
          tauto
    have htail : collectErrors rest (pre.length + 1) (seenAfter it seen)
        = (List.range rest.length).flatMap
            (fun j => errsAt (pre ++ it :: rest) (pre.length + (j + 1))) := by
      have happ : (pre ++ [it]) ++ rest = pre ++ it :: rest := by simp
      have hlen : (pre ++ [it]).length = pre.length + 1 := by simp
      have hrec := ih (pre ++ [it]) (seenAfter it seen) hinv
      rw [hlen, happ] at hrec
      rw [hrec]
      have hfun : (fun j => errsAt (pre ++ it :: rest) (pre.length + 1 + j))
          = (fun j => errsAt (pre ++ it :: rest) (pre.length + (j + 1))) := by
        funext j
        congr 1
        omega
      rw [hfun]
    rw [hsplit, hhead, ← htail]
    simp only [collectErrors]

/-- The whole loop equals the positional error list. -/
theorem collectErrors_eq_posLineErrs (value : List IngredientItem) :
    collectErrors value 0 [] = posLineErrs value := by
  have h := collectErrors_positional value [] []
    (by intro n; simp [truthyIds, List.filterMap])
  simpa [posLineErrs] using h

/-- Pointwise: position `i` carries no claim-worded defect exactly when the
loop emits no error there and its truthy id (if any) is in the catalog. -/
theorem claimDefectsAt_nil_iff (catalog : List Nat) (value : List IngredientItem) (i : Nat) :
    claimDefectsAt catalog value i = []
      ↔ (errsAt value i = []
          ∧ ∀ it, value[i]? = some it →
              ∀ n, it.id = some n → n ≠ 0 → catalog.contains n = true) := by
  cases hget : value[i]? with
  | none => simp [claimDefectsAt, errsAt, hget]
  | some it =>
    cases hid : it.id with
    | none =>
      simp [claimDefectsAt, errsAt, hget, itemErrors, idTruthy, hid]
    | some n =>
      by_cases hn : n = 0
      · simp [claimDefectsAt, errsAt, hget, itemErrors, idTruthy, hid, hn]
      · cases hamt : it.amount with
        | none =>
          simp [claimDefectsAt, errsAt, hget, itemErrors, idTruthy, hid, hn, hamt]
        | some o =>
          cases o with
          | none =>
            simp [claimDefectsAt, errsAt, hget, itemErrors, idTruthy, hid, hn, hamt]
          | some a =>
            by_cases ha : a < 1
            · simp [claimDefectsAt, errsAt, hget, itemErrors, idTruthy, hid, hn, hamt, ha]
            · by_cases hdup : (idsBefore value i).contains n = true
              · simp [claimDefectsAt, errsAt, hget, itemErrors, idTruthy,
                      hid, hn, hamt, ha, hdup]
              · by_cases hcat : catalog.contains n = true
                · simp [claimDefectsAt, errsAt, hget, itemErrors, idTruthy,
                        hid, hn, hamt, ha, hdup, hcat]
                · simp [claimDefectsAt, errsAt, hget, itemErrors, idTruthy,
                        hid, hn, hamt, ha, hdup, hcat]

/-- The aggregated catalog error is absent exactly when every truthy id is in
the catalog. -/
theorem unknownErrs_nil_iff (catalog : List Nat) (value : List IngredientItem) :
    unknownErrs catalog value = []
      ↔ ∀ n ∈ truthyIds value, catalog.contains n = true := by
  have key : ((truthyIds value).dedup.filter (fun n => !(catalog.contains n))) = []
      ↔ ∀ n ∈ truthyIds value, catalog.contains n = true := by
    rw [List.filter_eq_nil_iff]
    constructor
    · intro h n hn
      have h2 := h n (List.mem_dedup.mpr hn)
      simpa using h2
    · intro h n hn
      have h2 := h n (List.mem_dedup.mp hn)
      simpa using h2
  rw [← key]
  unfold unknownErrs
  by_cases hemp : ((truthyIds value).dedup.filter (fun n => !(catalog.contains n))) = []
  · simp [hemp]
  · simp [hemp, List.isEmpty_iff]

/-- The per-position catalog clause, over all positions, is the catalog check
over all truthy ids. -/
theorem pos_catalog_clause_iff (catalog : List Nat) (value : List IngredientItem) :
    (∀ i ∈ List.range value.length, ∀ it, value[i]? = some it →
        ∀ n, it.id = some n → n ≠ 0 → catalog.contains n = true)
      ↔ ∀ n ∈ truthyIds value, catalog.contains n = true := by
  constructor
  · intro h n hn
    rw [truthyIds, List.mem_filterMap] at hn
    obtain ⟨it, hit, heq⟩ := hn
    obtain ⟨i, hget⟩ := List.mem_iff_getElem?.mp hit
    obtain ⟨hlt, _⟩ := List.getElem?_eq_some_iff.mp hget
    cases hid : it.id with
    | none => rw [hid] at heq; simp at heq
    | some k =>
      rw [hid] at heq
      dsimp only at heq
      by_cases hk : k = 0
      · simp [hk] at heq
      · have hkn : k = n := by
          rw [if_pos (show (k != 0) = true by simpa using hk)] at heq
          exact Option.some.inj heq
        subst hkn
        exact h i (List.mem_range.mpr hlt) it hget k hid hk
  · intro h i _ it hget n hid hn
    apply h
    rw [truthyIds, List.mem_filterMap]
    refine ⟨it, List.mem_iff_getElem?.mpr ⟨i, hget⟩, ?_⟩
    simp [hid, hn]

/-- No claim-worded defect anywhere ↔ the loop and the catalog check both
emit nothing. -/
theorem claimDefects_nil_iff (catalog : List Nat) (value : List IngredientItem) :
    claimDefects catalog value = []
      ↔ (posLineErrs value = [] ∧ unknownErrs catalog value = []) := by
  rw [claimDefects, posLineErrs, List.flatMap_eq_nil_iff, List.flatMap_eq_nil_iff,
      unknownErrs_nil_iff, ← pos_catalog_clause_iff]
  constructor
  · intro h
    exact ⟨fun i hi => ((claimDefectsAt_nil_iff catalog value i).mp (h i hi)).1,
           fun i hi => ((claimDefectsAt_nil_iff catalog value i).mp (h i hi)).2⟩
  · intro hp i hi
    exact (claimDefectsAt_nil_iff catalog value i).mpr ⟨hp.1 i hi, hp.2 i hi⟩

/-- C3 (amended): for every non-empty line sequence, validation succeeds
exactly when no defect exists and otherwise fails with the full aggregated
error list: one error per line-level defective occurrence in index order (a
repeated id erring on each repeat and never on its first occurrence),
followed by one error naming all catalog-missing ids together — never only
the first defect found. -/
theorem validate_ingredients_batched (catalog : List Nat) (value : List IngredientItem)
    (h : value ≠ []) :
    validate_ingredients catalog value
      = if claimDefects catalog value = [] then .ok value
        else .error (posLineErrs value ++ unknownErrs catalog value) := by
  have hlen : ¬ value.length < 1 := by
    cases value with
    | nil => exact absurd rfl h
    | cons a l => simp
  unfold validate_ingredients
  rw [if_neg hlen, collectErrors_eq_posLineErrs]
  by_cases hd : claimDefects catalog value = []
  · obtain ⟨h1, h2⟩ := (claimDefects_nil_iff catalog value).mp hd
    simp [h1, h2, hd]
  · rw [if_neg hd]
    have hne : ¬ (posLineErrs value ++ unknownErrs catalog value) = [] := by
      intro hc
      exact hd ((claimDefects_nil_iff catalog value).mpr (List.append_eq_nil.mp hc))
    simp [List.isEmpty_iff, hne]

/-- Witness for C3 (amended) at concrete inputs: a defect-free line passes,
and a batch with a missing amount, a repeat and an unknown id fails with all
three errors aggregated. -/
theorem validate_ingredients_batched_witness :
    validate_ingredients [1, 2] [⟨some 1, some (some 5)⟩]
      = .ok [⟨some 1, some (some 5)⟩]
    ∧ validate_ingredients [1, 2] [⟨some 1, none⟩, ⟨some 1, some (some 4)⟩, ⟨some 9, some (some 2)⟩]
      = .error [.missingAmount 0, .dupIngredient 1 1, .unknownIngredients [9]] := by
  constructor
  · rw [validate_ingredients_batched [1, 2] [⟨some 1, some (some 5)⟩] (by decide)]
    decide
  · rw [validate_ingredients_batched [1, 2]
      [⟨some 1, none⟩, ⟨some 1, some (some 4)⟩, ⟨some 9, some (some 2)⟩] (by decide)]
    decide

/-- C3 counterexample: two lines whose ids are both absent from the catalog
are two defective occurrences, but the code emits one aggregated error for
both, so validation does not produce one error per defective occurrence. -/
theorem validate_single_error_for_two_unknown_ids :
    validate_ingredients [] [⟨some 5, some (some 2)⟩, ⟨some 7, some (some 3)⟩]
      = .error [.unknownIngredients [5, 7]]
    ∧ claimDefects [] [⟨some 5, some (some 2)⟩, ⟨some 7, some (some 3)⟩]
      = [.unknownId 0 5, .unknownId 1 7]
    ∧ ([VErr.unknownIngredients [5, 7]] : List VErr).length
      ≠ ([Defect.unknownId 0 5, Defect.unknownId 1 7] : List Defect).length := by
  decide

/-- C5: an update attempted by anyone other than the recipe's author leaves
the stored state — attribute fields and ingredient-line set included —
unchanged, and, for a payload that passes field validation, fails with the
permission error. -/
theorem update_by_non_author_rejected (db : DB) (actor rid : Nat) (p : RecipePayload)
    (fail : Bool) (r : Recipe)
    (hfind : db.recipes.find? (fun x => x.id == rid) = some r)
    (hauth : actor ≠ r.author) :
    (updateRecipe db actor rid p fail).1 = db
    ∧ (∀ value, p.ingredients = some value →
        validate_ingredients (catalogIds db) value = .ok value →
        1 ≤ p.cooking_time →
        updateRecipe db actor rid p fail = (db, some .permission)) := by
  constructor
  · cases hi : p.ingredients with
    | none => simp [updateRecipe, hfind, hi]
    | some value =>
      cases hv : validate_ingredients (catalogIds db) value with
      | error errs => simp [updateRecipe, hfind, hi, hv]
      | ok w =>
        by_cases hct : p.cooking_time < 1
        · simp [updateRecipe, hfind, hi, hv, hct]
        · simp [updateRecipe, hfind, hi, hv, hct, hauth]
  · intro value hi hv hct
    have hct' : ¬ p.cooking_time < 1 := by omega
    simp [updateRecipe, hfind, hi, hv, hct', hauth]

/-- Witness for C5: user 2 tries to update user 1's recipe with a valid
payload; the call fails with the permission error and the state is
unchanged. -/
theorem update_by_non_author_rejected_witness :
    (updateRecipe exDB 2 10 exPayload false).1 = exDB
    ∧ updateRecipe exDB 2 10 exPayload false = (exDB, some .permission) := by
  have h := update_by_non_author_rejected exDB 2 10 exPayload false exRecipe
    (by decide) (by decide)
  exact ⟨h.1, h.2 [{ id := some 1, amount := some (some 7) }] rfl (by decide) (by decide)⟩

/-- C6: recipe creation ignores any caller-supplied author entirely — the
outcome is identical for any two supplied author values — and on success the
inserted recipe row's author is the acting user. -/
theorem create_forces_author (db : DB) (actor : Nat) (p : RecipePayload)
    (a₁ a₂ : Option Nat) :
    createRecipe db actor { p with suppliedAuthor := a₁ }
      = createRecipe db actor { p with suppliedAuthor := a₂ }
    ∧ ((createRecipe db actor p).2 = none →
        ((createRecipe db actor p).1.recipes.head?).map Recipe.author = some actor) := by
  constructor
  · rfl
  · intro h
    cases hi : p.ingredients with
    | none => simp [createRecipe, hi] at h
    | some value =>
      cases hv : validate_ingredients (catalogIds db) value with
      | error errs => simp [createRecipe, hi, hv] at h
      | ok w =>
        by_cases hct : p.cooking_time < 1
        · simp [createRecipe, hi, hv, hct] at h
        · simp [createRecipe, hi, hv, hct]

/-- Witness for C6: whatever author id the caller smuggles into the payload,
creation by user 3 persists author 3. -/
theorem create_forces_author_witness :
    createRecipe exDB 3 { exPayload with suppliedAuthor := some 42 }
      = createRecipe exDB 3 { exPayload with suppliedAuthor := some 7 }
    ∧ ((createRecipe exDB 3 exPayload).1.recipes.head?).map Recipe.author = some 3 := by
  have h := create_forces_author exDB 3 exPayload (some 42) (some 7)
  exact ⟨h.1, h.2 (by decide)⟩

/-- C1: the source wraps the line delete and the line bulk-create of
`update` in no transaction, so a failure injected between the two (the
spec's own test scenario) observably leaves the recipe with zero ingredient
lines — not with its original lines, as the claim requires. -/
theorem update_failure_after_delete_loses_lines :
    (updateRecipe exDB 1 10 exPayload true).2 = some .injectedFailure
    ∧ linesOf (updateRecipe exDB 1 10 exPayload true).1 10 = []
    ∧ linesOf exDB 10 = [{ recipe := 10, ingredient := 1, amount := 5 }] := by
  decide

/-- The lexicographic character comparison is total. -/
theorem charsLe_total : ∀ as bs : List Char, charsLe as bs = true ∨ charsLe bs as = true := by
  intro as
  induction as with
  | nil => intro bs; left; rfl
  | cons a as ih =>
    intro bs
    cases bs with
    | nil => right; rfl
    | cons b bs =>
      simp only [charsLe]
      rcases Nat.lt_trichotomy a.toNat b.toNat with h | h | h
      · left; simp [h]
      · have h' : b.toNat = a.toNat := h.symm
        rcases ih bs with h2 | h2
        · left; simp [h, Nat.lt_irrefl, h2]
        · right; simp [h', Nat.lt_irrefl, h2]
      · right; simp [h]

/-- The lexicographic character comparison is transitive. -/
theorem charsLe_trans : ∀ as bs cs : List Char,
    charsLe as bs = true → charsLe bs cs = true → charsLe as cs = true := by
  intro as
  induction as with
  | nil => intro bs cs _ _; rfl
  | cons a as ih =>
    intro bs cs h1 h2
    cases bs with
    | nil => simp [charsLe] at h1
    | cons b bs =>
      cases cs with
      | nil => simp [charsLe] at h2
      | cons c cs =>
        simp only [charsLe] at h1 h2 ⊢
        by_cases hab : a.toNat < b.toNat
        · by_cases hbc : b.toNat < c.toNat
          · simp [Nat.lt_trans hab hbc]
          · simp [hab] at h1
            by_cases hbc' : b.toNat = c.toNat
            · simp [hbc' ▸ hab]
            · simp [hbc, hbc'] at h2
        · by_cases hab' : a.toNat = b.toNat
          · simp [hab, hab'] at h1
            by_cases hbc : b.toNat < c.toNat
            · simp [hab' ▸ hbc]
            · by_cases hbc' : b.toNat = c.toNat
              · simp [hbc, hbc'] at h2
                have hac : ¬ a.toNat < c.toNat := by omega
                have he : a.toNat = c.toNat := by omega
                simp [hac, he, ih bs cs h1 h2]
              · simp [hbc, hbc'] at h2
          · simp [hab, hab'] at h1

instance : IsTotal (String × String) keyNameLE :=
  ⟨fun a b => charsLe_total a.1.data b.1.data⟩

instance : IsTrans (String × String) keyNameLE :=
  ⟨fun a b c hab hbc => charsLe_trans a.1.data b.1.data c.1.data hab hbc⟩

instance : IsTotal Ingredient ingNameLE :=
  ⟨fun a b => charsLe_total a.name.data b.name.data⟩

instance : IsTrans Ingredient ingNameLE :=
  ⟨fun a b c hab hbc => charsLe_trans a.name.data b.name.data c.name.data hab hbc⟩

/-- The group keys of the output rows are the sorted distinct keys. -/
theorem aggregateRows_map_lineKey (db : DB) (u : Nat) :
    (aggregateRows db u).map lineKey = sortedKeys db u := by
  unfold aggregateRows
  rw [List.map_map]
  have h : (lineKey ∘ fun k : String × String => (k.1, k.2, groupTotal db u k))
      = id := by
    funext k
    rfl
  rw [h, List.map_id]

/-- C4: the aggregation groups the cart's joined lines by the (name, unit)
pair — one output row per distinct key, so distinct catalog rows with equal
name and unit coalesce into one group — sums the amounts within each group,
and emits the rows ordered alphabetically by ingredient name. -/
theorem aggregate_rows_grouped (db : DB) (u : Nat) :
    ((aggregateRows db u).map lineKey).Nodup
    ∧ (∀ k : String × String,
        k ∈ (aggregateRows db u).map lineKey ↔ k ∈ (joinedCartLines db u).map lineKey)
    ∧ (∀ row ∈ aggregateRows db u,
        row.2.2 = (((joinedCartLines db u).filter
            (fun l => lineKey l == lineKey row)).map (fun l => l.2.2)).sum)
    ∧ ((aggregateRows db u).map (fun row => row.1)).Pairwise
        (fun a b => strLe a b = true) := by
  have hperm : List.Perm (sortedKeys db u) (groupKeys db u) :=
    List.perm_insertionSort keyNameLE (groupKeys db u)
  refine ⟨?_, ?_, ?_, ?_⟩
  · rw [aggregateRows_map_lineKey]
    exact hperm.symm.nodup (List.nodup_dedup _)
  · intro k
    rw [aggregateRows_map_lineKey]
    rw [hperm.mem_iff]
    exact List.mem_dedup
  · intro row hrow
    obtain ⟨k, hk, hrk⟩ := List.mem_map.mp hrow
    rw [← hrk]
    rfl
  · have hsorted : List.Sorted keyNameLE (sortedKeys db u) :=
      List.sorted_insertionSort keyNameLE (groupKeys db u)
    have hmap : (aggregateRows db u).map (fun row => row.1)
        = (sortedKeys db u).map (fun k => k.1) := by
      unfold aggregateRows
      rw [List.map_map]
      rfl
    rw [hmap, List.pairwise_map]
    exact hsorted

/-- Witness for C4 on the Salt example: the two lines of distinct recipes
coalesce into the single group ("Salt", "g") with total 8. -/
theorem aggregate_rows_grouped_witness :
    aggregateRows exCartDB 7 = [("Salt", "g", 8)]
    ∧ (8 : Int) = (((joinedCartLines exCartDB 7).filter
        (fun l => lineKey l == lineKey ("Salt", "g", (8 : Int)))).map (fun l => l.2.2)).sum := by
  refine ⟨by decide, ?_⟩
  have h := (aggregate_rows_grouped exCartDB 7).2.2.1 ("Salt", "g", 8) (by decide)
  simpa using h

/-- The aggregate is empty exactly when the joined line list is. -/
theorem aggregateRows_nil_iff (db : DB) (u : Nat) :
    aggregateRows db u = [] ↔ joinedCartLines db u = [] := by
  unfold aggregateRows
  rw [List.map_eq_nil_iff]
  have hperm : List.Perm (sortedKeys db u) (groupKeys db u) :=
    List.perm_insertionSort keyNameLE (groupKeys db u)
  constructor
  · intro h
    have hg : groupKeys db u = [] := by
      have := hperm.length_eq
      rw [h] at this
      exact List.length_eq_zero.mp this.symm
    have : (joinedCartLines db u).map lineKey = [] := (List.dedup_eq_nil _).mp hg
    exact List.map_eq_nil_iff.mp this
  · intro h
    have hg : groupKeys db u = [] := by
      unfold groupKeys
      rw [h]
      rfl
    have := hperm.length_eq
    rw [hg] at this
    exact List.length_eq_zero.mp this

/-- Under referential integrity the join drops nothing, so the joined lines
are empty exactly when the cart's raw line set is. -/
theorem joinedCartLines_nil_iff (db : DB) (u : Nat) (hfk : linesFKOk db) :
    joinedCartLines db u = [] ↔ cartLines db u = [] := by
  constructor
  · intro h
    cases hc : cartLines db u with
    | nil => rfl
    | cons ri rest =>
      have hri : ri ∈ db.recipeIngredients := by
        have hm : ri ∈ cartLines db u := by
          rw [hc]
          exact List.mem_cons_self ri rest
        exact (List.mem_filter.mp hm).1
      have hsome := hfk ri hri
      unfold joinedCartLines at h
      rw [hc, List.filterMap_cons] at h
      cases hig : ingredientById db ri.ingredient with
      | none => rw [hig] at hsome; simp at hsome
      | some ing => rw [hig] at h; simp at h
  · intro h
    unfold joinedCartLines
    rw [h]
    rfl

/-- C9: the download endpoint returns the 400 empty-list error exactly when
the set of ingredient lines across the cart's recipes is empty — the check
is on the aggregated rows, not on the cart relation — so a non-empty cart
whose recipes have no lines also fails, and an empty cart always does. -/
theorem download_empty_error_iff (db : DB) (u : Nat) (hfk : linesFKOk db) :
    (download_shopping_cart db u = .error .emptyList ↔ cartLines db u = [])
    ∧ (db.shoppingCart.filter (fun p => p.1 == u) = [] →
        download_shopping_cart db u = .error .emptyList) := by
  have hiff : download_shopping_cart db u = .error .emptyList
      ↔ aggregateRows db u = [] := by
    unfold download_shopping_cart
    by_cases h : (aggregateRows db u).isEmpty
    · simp [h, List.isEmpty_iff.mp h]
    · have hne : aggregateRows db u ≠ [] := by
        simpa [List.isEmpty_iff] using h
      simp [h, hne]
  have hmain : download_shopping_cart db u = .error .emptyList
      ↔ cartLines db u = [] := by
    rw [hiff, aggregateRows_nil_iff, joinedCartLines_nil_iff db u hfk]
  refine ⟨hmain, ?_⟩
  intro hcart
  rw [hmain]
  have hids : cartRecipeIds db u = [] := by
    unfold cartRecipeIds
    rw [hcart]
    rfl
  unfold cartLines
  rw [hids]
  simp

/-- Witness for C9: user 9's cart is non-empty, yet because its only recipe
has no ingredient lines the endpoint fails with the empty-list error. -/
theorem download_empty_error_iff_witness :
    download_shopping_cart exNoLinesDB 9 = .error .emptyList
    ∧ exNoLinesDB.shoppingCart ≠ [] := by
  refine ⟨?_, by decide⟩
  exact (download_empty_error_iff exNoLinesDB 9 (by decide)).1.mpr (by decide)

/-- C2 (amended): every successful report is the newline-join of one
`"{name} ({unit}): {total}"` line per aggregated row — notes do not exist in
this aggregation and are never printed — and on the spec's Salt example the
report is exactly the single line "Salt (g): 8". -/
theorem report_line_format (db : DB) (u : Nat) :
    (∀ s, download_shopping_cart db u = .ok s →
        s = String.intercalate "\n"
          ((aggregateRows db u).map (fun row =>
            row.1 ++ " (" ++ row.2.1 ++ "): " ++ toString row.2.2)))
    ∧ download_shopping_cart exCartDB 7 = .ok "Salt (g): 8" := by
  constructor
  · intro s hs
    unfold download_shopping_cart at hs
    by_cases h : (aggregateRows db u).isEmpty
    · rw [if_pos h] at hs
      exact absurd hs (by intro hc; exact Except.noConfusion hc)
    · rw [if_neg h] at hs
      injection hs with hs2
      rw [← hs2]
      rfl
  · decide

/-- Witness for C2 (amended) at the Salt example. -/
theorem report_line_format_witness :
    ("Salt (g): 8" : String) = String.intercalate "\n"
      ((aggregateRows exCartDB 7).map (fun row =>
        row.1 ++ " (" ++ row.2.1 ++ "): " ++ toString row.2.2)) :=
  (report_line_format exCartDB 7).1 "Salt (g): 8" (by decide)

/-- C2 counterexample: on the spec's own Salt example the report consists of
the single line "Salt (g): 8"; the claimed line "Salt - 8 g (fine)" (format
`"{name} - {total} {unit}"` with appended notes) does not occur. -/
theorem report_not_in_claimed_format :
    download_shopping_cart exCartDB 7 = .ok "Salt (g): 8"
    ∧ ("Salt (g): 8" : String) ≠ "Salt - 8 g (fine)" := by
  decide

/-- C10: a search with the name parameter absent or empty returns the whole
catalog, ordered alphabetically by name (hence non-empty whenever the
catalog is); a non-empty term keeps exactly the catalog rows whose name
starts with the term case-insensitively, in the same order. -/
theorem ingredient_search_lenient (db : DB) :
    (List.Perm (ingredientSearch db none) db.ingredients
      ∧ (ingredientSearch db none).Pairwise ingNameLE
      ∧ ingredientSearch db (some "") = ingredientSearch db none
      ∧ (db.ingredients ≠ [] → ingredientSearch db none ≠ []))
    ∧ (∀ t, t ≠ "" →
        List.Perm (ingredientSearch db (some t))
            (db.ingredients.filter (fun ing => istartswith t ing.name))
          ∧ (ingredientSearch db (some t)).Pairwise ingNameLE) := by
  have hperm : List.Perm (orderedCatalog db) db.ingredients :=
    List.perm_insertionSort ingNameLE db.ingredients
  have hsorted : List.Sorted ingNameLE (orderedCatalog db) :=
    List.sorted_insertionSort ingNameLE db.ingredients
  constructor
  · refine ⟨hperm, hsorted, rfl, ?_⟩
    intro hne hnil
    have h0 : orderedCatalog db = [] := hnil
    have hlen := hperm.length_eq
    rw [h0] at hlen
    exact hne (List.length_eq_zero.mp hlen.symm)
  · intro t ht
    have hsearch : ingredientSearch db (some t)
        = (orderedCatalog db).filter (fun ing => istartswith t ing.name) := by
      unfold ingredientSearch
      dsimp only
      rw [if_neg ht]
    constructor
    · rw [hsearch]
      exact hperm.filter _
    · rw [hsearch]
      exact hsorted.filter _

/-- Witness for C10: searching "sal" in a Salt/Pepper/Salmon catalog returns
Salmon and Salt (alphabetically), and not Pepper; the empty search returns
everything. -/
theorem ingredient_search_lenient_witness :
    List.Perm (ingredientSearch exSearchDB (some "sal"))
      (exSearchDB.ingredients.filter (fun ing => istartswith "sal" ing.name))
    ∧ ingredientSearch exSearchDB (some "sal")
      = [{ id := 3, name := "Salmon", measurement_unit := "kg" },
         { id := 1, name := "Salt", measurement_unit := "g" }]
    ∧ (ingredientSearch exSearchDB (some "")).length = 3 := by
  refine ⟨((ingredient_search_lenient exSearchDB).2 "sal" (by decide)).1, by decide, by decide⟩


end Foodgram
